import Mathlib

/-!
Verification development for the OCR medication-extraction pipeline
(`src/utils/ocrService.ts`).  The TypeScript source works by running a
cascade of JavaScript regular expressions over recognised text, so the
embedding starts from a small backtracking regex engine with JS
leftmost-greedy semantics (alternation tries the left branch first,
quantifiers are greedy, the scan tries start positions left to right).
Texts are embedded as `List Char`.
-/

namespace LuminousOCR

/-- JS character class \d, the digits 0-9. -/
def isDigitC (c : Char) : Bool := 48 ≤ c.toNat && c.toNat ≤ 57

/-- Uppercase ASCII letter: the class [A-Z] of a case-sensitive pattern. -/
def isUpperC (c : Char) : Bool := 65 ≤ c.toNat && c.toNat ≤ 90

/-- Lowercase ASCII letter: the class [a-z] of a case-sensitive pattern. -/
def isLowerC (c : Char) : Bool := 97 ≤ c.toNat && c.toNat ≤ 122

/-- ASCII letter: [A-Za-z], and also [A-Z] or [a-z] under the /i flag. -/
def isAlphaC (c : Char) : Bool := isUpperC c || isLowerC c

/-- JS \s restricted to ASCII whitespace (the characters OCR text contains). -/
def isSpaceC (c : Char) : Bool :=
  c == ' ' || c == '\t' || c == '\n' || c == '\r' || c == '\x0b' || c == '\x0c'

/-- JS word character \w = [A-Za-z0-9_]. -/
def isWordC (c : Char) : Bool := isAlphaC c || isDigitC c || c == '_'

/-- Capture-group records: (group index, start, stop), most recent first,
so a lookup of the first entry with a given index is the JS value. -/
abbrev Caps := List (Nat × Nat × Nat)

/-- The result of a regex search: match start, match end, capture groups. -/
structure MatchRes where
  start : Nat
  stop : Nat
  caps : Caps
deriving DecidableEq, Repr

/-- Regular-expression abstract syntax, enough for every pattern of
`ocrService.ts`: empty, character class, sequencing, alternation
(left branch preferred), greedy star, numbered capture group, the ^ and $
anchors (with or without the /m flag) and the \b word boundary. -/
inductive Re where
  | eps
  | cls (p : Char → Bool)
  | seq (a b : Re)
  | alt (a b : Re)
  | star (a : Re)
  | grp (n : Nat) (a : Re)
  | bol (multiline : Bool)
  | eol (multiline : Bool)
  | wordB

/-- The greedy-star loop: try one more (necessarily consuming) iteration of
the body first, fall back to the continuation — JS greedy semantics, which
also refuses empty star iterations.  The fuel only bounds the unrolling; a
star iteration consumes at least one character, so fuel
`input length + 1 - position` is never exhausted. -/
def starLoop
    (body : Nat → Caps → (Nat → Caps → Option (Nat × Caps)) → Option (Nat × Caps)) :
    Nat → Nat → Caps → (Nat → Caps → Option (Nat × Caps)) → Option (Nat × Caps)
  | 0, i, cp, k => k i cp
  | f + 1, i, cp, k =>
      (body i cp (fun j cp2 => if i < j then starLoop body f j cp2 k else none)).orElse
        (fun _ => k i cp)

/-- Backtracking matcher in continuation-passing style with JS semantics:
`matRe inp re i cp k` tries to match `re` at position `i`, calling the
continuation `k` with the end position and captures of each candidate match,
greediest first. -/
def matRe (inp : List Char) : Re → Nat → Caps →
    (Nat → Caps → Option (Nat × Caps)) → Option (Nat × Caps)
  | .eps, i, cp, k => k i cp
  | .cls p, i, cp, k =>
      match inp.get? i with
      | some c => if p c then k (i + 1) cp else none
      | none => none
  | .seq a b, i, cp, k =>
      matRe inp a i cp fun j cp2 => matRe inp b j cp2 k
  | .alt a b, i, cp, k =>
      (matRe inp a i cp k).orElse fun _ => matRe inp b i cp k
  | .star a, i, cp, k =>
      starLoop (fun j cp2 k2 => matRe inp a j cp2 k2) (inp.length + 1 - i) i cp k
  | .grp n a, i, cp, k =>
      matRe inp a i cp fun j cp2 => k j ((n, i, j) :: cp2)
  | .bol ml, i, cp, k =>
      if i == 0 || (ml && inp.get? (i - 1) == some '\n') then k i cp else none
  | .eol ml, i, cp, k =>
      if i == inp.length || (ml && inp.get? i == some '\n') then k i cp else none
  | .wordB, i, cp, k =>
      let before := (i != 0) && ((inp.get? (i - 1)).any isWordC)
      let after := (inp.get? i).any isWordC
      if before != after then k i cp else none

/-- Scan start positions left to right, as JS `String.prototype.match`
without the /g flag: the match at the least start position wins. -/
def searchFrom (re : Re) (inp : List Char) : Nat → Nat → Option MatchRes
  | 0, _ => none
  | f + 1, pos =>
      if pos ≤ inp.length then
        match matRe inp re pos [] (fun j cp => some (j, cp)) with
        | some (j, cp) => some ⟨pos, j, cp⟩
        | none => searchFrom re inp f (pos + 1)
      else none

/-- `text.match(re)` for a non-global regex: the leftmost match, if any. -/
def reSearch (re : Re) (inp : List Char) : Option MatchRes :=
  searchFrom re inp (inp.length + 1) 0

/-- `re.test(text)`. -/
def reTest (re : Re) (inp : List Char) : Bool := (reSearch re inp).isSome

/-- Helper for the match count of a /g regex: JS advances past each match
(one position forward on an empty match). -/
def countFrom (re : Re) (inp : List Char) : Nat → Nat → Nat
  | 0, _ => 0
  | f + 1, pos =>
      match searchFrom re inp (inp.length + 1) pos with
      | none => 0
      | some m =>
          1 + countFrom re inp f (if m.start < m.stop then m.stop else m.start + 1)

/-- `(text.match(re_global) || []).length`. -/
def countG (re : Re) (inp : List Char) : Nat := countFrom re inp (inp.length + 1) 0

/-- Helper for `text.split(re)`: cut at each leftmost match and continue on
the remaining suffix (the delimiter regexes of this module are
position-independent: no anchors and no word boundaries, so scanning the
suffix equals JS scanning the whole string from the previous match end).
The `else` arm handles an empty match by stepping one position, as JS does;
the delimiters of this module never match the empty string. -/
def splitGo (re : Re) : Nat → List Char → List (List Char)
  | 0, inp => [inp]
  | f + 1, inp =>
      match reSearch re inp with
      | none => [inp]
      | some m =>
          if m.start < m.stop then inp.take m.start :: splitGo re f (inp.drop m.stop)
          else inp.take m.start :: splitGo re f (inp.drop (m.start + 1))

/-- `text.split(re)` for the anchor-free delimiter regexes of this module. -/
def splitRe (re : Re) (inp : List Char) : List (List Char) :=
  splitGo re (inp.length + 1) inp

/-- The characters of positions [a, b), i.e. `text.substring(a, b)` for a ≤ b. -/
def sub (inp : List Char) (a b : Nat) : List Char := (inp.drop a).take (b - a)

/-- `match[0]`: the matched substring. -/
def matchStr (m : MatchRes) (inp : List Char) : List Char := sub inp m.start m.stop

/-- `match[n]`: the text captured by group `n` (`none` when the group did not
participate, like the JS value `undefined`). -/
def grpStr (n : Nat) (m : MatchRes) (inp : List Char) : Option (List Char) :=
  (m.caps.find? (fun e => e.1 == n)).map (fun e => sub inp e.2.1 e.2.2)

/-- JS `String.prototype.trim`. -/
def trim (s : List Char) : List Char :=
  ((s.dropWhile isSpaceC).reverse.dropWhile isSpaceC).reverse

/-- JS `String.prototype.toLowerCase` (ASCII). -/
def lowerStr (s : List Char) : List Char := s.map Char.toLower

/-- JS `hay.includes(needle)`. -/
def includesStr : List Char → List Char → Bool
  | hay, needle =>
      needle.isPrefixOf hay ||
        match hay with
        | [] => false
        | _ :: rest => includesStr rest needle

/-- JS `text.split(c)` for a one-character separator. -/
def splitChar (c : Char) : List Char → List (List Char)
  | [] => [[]]
  | d :: rest =>
      if d == c then [] :: splitChar c rest
      else
        match splitChar c rest with
        | [] => [[d]]
        | piece :: more => (d :: piece) :: more

/-- JS truthiness of an optional string field: present and nonempty.
An absent field is `undefined` and an empty string is falsy. -/
def truthy : Option (List Char) → Bool
  | none => false
  | some s => !s.isEmpty

/-- `line.replace(/^\W+|\W+$/g, '')`: strip leading and trailing runs of
non-word characters. -/
def trimNonWord (s : List Char) : List Char :=
  ((s.dropWhile (fun c => !isWordC c)).reverse.dropWhile (fun c => !isWordC c)).reverse

/-! ### Pattern constructors mirroring the JS regex literals -/

/-- A case-sensitive literal character. -/
def chr (c : Char) : Re := .cls (fun d => d == c)

/-- A literal character under the /i flag. -/
def chrI (c : Char) : Re := .cls (fun d => d.toLower == c.toLower)

/-- Sequencing of a pattern list. -/
def rseq (l : List Re) : Re := l.foldr .seq .eps

/-- A case-insensitive literal string. -/
def strI (s : String) : Re := rseq (s.toList.map chrI)

/-- A case-sensitive literal string. -/
def strS (s : String) : Re := rseq (s.toList.map chr)

/-- Alternation of a pattern list, leftmost preferred. -/
def altL : List Re → Re
  | [] => .eps
  | [r] => r
  | r :: rs => .alt r (altL rs)

/-- `x+` (greedy). -/
def rplus (a : Re) : Re := .seq a (.star a)

/-- `x?` (greedy). -/
def ropt (a : Re) : Re := .alt a .eps

/-- `x{0,2}` (greedy: two, then one, then zero repetitions). -/
def rep02 (a : Re) : Re := ropt (.seq a (ropt a))

/-- `\d+`. -/
def digits1 : Re := rplus (.cls isDigitC)

/-- `\s+`. -/
def spaces1 : Re := rplus (.cls isSpaceC)

/-- `\s*`. -/
def spaces0 : Re := .star (.cls isSpaceC)

/-- `[A-Z]`, `[a-z]` or `[A-Za-z]` under the /i flag: any ASCII letter. -/
def alphaI : Re := .cls isAlphaC

/-! ### The regex literals of `parseMedicationFromText` (source lines 445-595) -/

/-- `\d+(?:\.\d+)?`. -/
def decNumRe : Re := rseq [digits1, ropt (rseq [chr '.', digits1])]

/-- `mg|mcg|g|ml|units?` with /i. -/
def doseUnitsRe : Re :=
  altL [strI "mg", strI "mcg", strI "g", strI "ml", .seq (strI "unit") (ropt (chrI 's'))]

/-- The two dosage patterns, parenthesised first (lines 445-448). -/
def dosagePatterns : List Re :=
  [rseq [chr '(', .grp 1 decNumRe, spaces0, doseUnitsRe, chr ')'],
   rseq [.grp 1 decNumRe, spaces0, doseUnitsRe, .wordB]]

/-- The four frequency patterns in priority order (lines 462-467). -/
def frequencyPatterns : List Re :=
  [rseq [strI "take", spaces1, digits1, spaces1, strI "tablet"],
   rseq [.wordB,
     .grp 1 (altL [strI "once", strI "twice", .seq (strI "three time") (ropt (chrI 's'))]),
     spaces1,
     altL [strI "daily", strI "per day", strI "a day", strI "in the morning",
       strI "in the evening"]],
   rseq [.wordB,
     .grp 1 (altL [strI "QD", strI "BID", strI "TID", strI "QID",
       rseq [chrI 'Q', digits1, chrI 'H']]),
     .wordB],
   rseq [altL [strI "in the", strI "every"], spaces1,
     .grp 1 (altL [strI "morning", strI "evening", strI "afternoon", strI "night"])]]

/-- The two route patterns (lines 477-480). -/
def routePatterns : List Re :=
  [rseq [strI "by", spaces1, .grp 1 (altL [strI "mouth", strI "injection", strI "inhalation"])],
   rseq [.wordB,
     .grp 1 (altL [strI "oral", strI "topical", strI "injection", strI "IV", strI "IM",
       strI "sublingual", strI "transdermal", strI "inhalation", strI "ophthalmic",
       strI "otic"]),
     .wordB]]

/-- The two prescriber patterns (lines 490-493); under /i the letter classes
all become any-letter. -/
def prescriberPatterns : List Re :=
  [rseq [altL [strI "Dr.", strI "Doctor"], spaces1,
     ropt (.grp 1 (rseq [alphaI, chr '.', spaces0])),
     .grp 2 (rseq [alphaI, rplus alphaI, spaces1, alphaI, rplus alphaI])],
   rseq [.grp 1 (rseq [alphaI, rplus alphaI, spaces1, alphaI, spaces1, alphaI, rplus alphaI]),
     spaces1, altL [strI "MD", strI "RPh", strI "NU", strI "par F"]]]

/-- `(?:qty|quantity)\s*:?\s*(\d+)` with /i (line 503). -/
def quantityPat : Re :=
  rseq [altL [strI "qty", strI "quantity"], spaces0, ropt (chr ':'), spaces0, .grp 1 digits1]

/-- `(?:refills?|no refills)\s*:?\s*(\d+|remaining)` with /i (line 508). -/
def refillsPat : Re :=
  rseq [altL [.seq (strI "refill") (ropt (chrI 's')), strI "no refills"], spaces0,
    ropt (chr ':'), spaces0, .grp 1 (altL [digits1, strI "remaining"])]

/-- `take\s+\d+\s+tablet[^.]*\.` with /i (line 513). -/
def instructionsPat : Re :=
  rseq [strI "take", spaces1, digits1, spaces1, strI "tablet",
    .star (.cls (fun c => c != '.')), chr '.']

/-- `\b([a-z]+[A-Z][A-Za-z]+)\b`, case sensitive (line 518). -/
def mixedCasePat : Re :=
  rseq [.wordB, .grp 1 (rseq [rplus (.cls isLowerC), .cls isUpperC, rplus (.cls isAlphaC)]),
    .wordB]

/-- `([A-Z][A-Za-z]+(?:\s+[A-Z]?[A-Za-z]+){0,2})\s*$` with /i (line 541). -/
def namePat : Re :=
  rseq [.grp 1 (rseq [alphaI, rplus alphaI, rep02 (rseq [spaces1, ropt alphaI, rplus alphaI])]),
    spaces0, .eol false]

/-- `commonly\s+known\s+as\s+([A-Za-z]+)` with /i (line 592). -/
def commonlyKnownPat : Re :=
  rseq [strI "commonly", spaces1, strI "known", spaces1, strI "as", spaces1,
    .grp 1 (rplus alphaI)]

/-- `\d{3}[-\s]?\d{3}[-\s]?\d{4}`, the phone-number exclusion (line 566). -/
def phonePat : Re :=
  rseq [.cls isDigitC, .cls isDigitC, .cls isDigitC,
    ropt (.cls (fun c => c == '-' || isSpaceC c)),
    .cls isDigitC, .cls isDigitC, .cls isDigitC,
    ropt (.cls (fun c => c == '-' || isSpaceC c)),
    .cls isDigitC, .cls isDigitC, .cls isDigitC, .cls isDigitC]

/-- `^\d+\s+[A-Z][a-z]+\s+(Place|Street|Road|Ave|Dr)` with /i (line 567). -/
def addressPat : Re :=
  rseq [.bol false, digits1, spaces1, alphaI, rplus alphaI, spaces1,
    .grp 1 (altL [strI "Place", strI "Street", strI "Road", strI "Ave", strI "Dr"])]

/-- `Rx\s*[:#]?\s*\d+` with /i (line 568). -/
def rxNumPat : Re :=
  rseq [strI "Rx", spaces0, ropt (.cls (fun c => c == ':' || c == '#')), spaces0, digits1]

/-- The drug-name-line exclusion list (lines 564-572), in source order. -/
def excludePatterns : List Re :=
  [strI "pharmacy", strI "hospital", strI "research", strI "children", strI "jude",
   phonePat, addressPat, rxNumPat,
   strI "written", strI "filled", strI "test", strI "patient", strI "discard",
   rseq [strI "commonly", spaces1, strI "known"],
   rseq [strI "no", spaces1, strI "refills"],
   rseq [.bol false, strI "take", spaces1, digits1],
   rseq [.bol false, strI "by", spaces1, strI "mouth"],
   strI "MRN", strI "mersin", strI "TET"]

/-- `[A-Za-z]{3,}` (line 575). -/
def lettersThreePat : Re :=
  rseq [.cls isAlphaC, .cls isAlphaC, .cls isAlphaC, .star (.cls isAlphaC)]

/-! ### The regex literals of `parseMultipleMedications` (lines 609-630) -/

/-- `Rx\s*[:#]?\s*\d{5,}` with /gi (line 609). -/
def rxCountPat : Re :=
  rseq [strI "Rx", spaces0, ropt (.cls (fun c => c == ':' || c == '#')), spaces0,
    .cls isDigitC, .cls isDigitC, .cls isDigitC, .cls isDigitC, .cls isDigitC,
    .star (.cls isDigitC)]

/-- The bullet-line test `^[\*•]\s` with /m (line 610). -/
def bulletPat : Re :=
  rseq [.bol true, .cls (fun c => c == '*' || c == '•'), .cls isSpaceC]

/-- The numbered-list test `^\d+\.\s+[A-Z]` with /m (line 611). -/
def numberedListPat : Re :=
  rseq [.bol true, digits1, chr '.', spaces1, .cls isUpperC]

/-- The section delimiter `(?:\n\s*\n\s*\n|\d+\.\s+[A-Z])` (line 630). -/
def sectionDelimPat : Re :=
  .alt (rseq [chr '\n', spaces0, chr '\n', spaces0, chr '\n'])
    (rseq [digits1, chr '.', spaces1, .cls isUpperC])

/-! ### The medication record and the field extraction -/

/-- `Partial<MedicationInfo>`: the optional string fields the parser fills.
An absent field is JS `undefined` ("not found"). -/
structure Med where
  name : Option (List Char) := none
  dosage : Option (List Char) := none
  frequency : Option (List Char) := none
  route : Option (List Char) := none
  prescriber : Option (List Char) := none
  quantity : Option (List Char) := none
  refills : Option (List Char) := none
  instructions : Option (List Char) := none
deriving DecidableEq, Repr

/-- The source's per-field for-loop with break: the first pattern of the list
to match wins and the loop stops. -/
def firstPatMatch (pats : List Re) (t : List Char) : Option MatchRes :=
  pats.findSome? (fun p => reSearch p t)

/-- `match[0].match(/\d+(?:\.\d+)?/)?.[0]`, with JS rendering a missing value
as the text "undefined" inside the template literal. -/
def numFallback (m0 : List Char) : List Char :=
  ((reSearch decNumRe m0).map (fun mn => matchStr mn m0)).getD ("undefined".toList)

/-- The dosage value: `${match[1] || fallback} ${match[0].match(units)?.[0]}`
(lines 455-457). -/
def dosageText (m : MatchRes) (t : List Char) : List Char :=
  let m0 := matchStr m t
  let number :=
    match grpStr 1 m t with
    | some s => if s.isEmpty then numFallback m0 else s
    | none => numFallback m0
  let unit := ((reSearch doseUnitsRe m0).map (fun mu => matchStr mu m0)).getD ("undefined".toList)
  number ++ ' ' :: unit

/-- The route value `match[1] || match[0].trim()` (line 485). -/
def routeText (m : MatchRes) (t : List Char) : List Char :=
  match grpStr 1 m t with
  | some s => if s.isEmpty then trim (matchStr m t) else s
  | none => trim (matchStr m t)

/-- `text.split('\n').map(trim).filter(Boolean)` (line 438). -/
def linesOf (t : List Char) : List (List Char) :=
  ((splitChar '\n' t).map trim).filter (fun l => !l.isEmpty)

/-- The seven pattern-driven field assignments of `parseMedicationFromText`
(lines 445-516).  They read only the input text, so the source's sequence of
independent statements is a record literal; the name is filled afterwards by
the four fallback strategies. -/
def fieldsStage (t : List Char) (dosageM : Option MatchRes) : Med :=
  { name := none,
    dosage := dosageM.map (fun m => dosageText m t),
    frequency := (firstPatMatch frequencyPatterns t).map (fun m => trim (matchStr m t)),
    route := (firstPatMatch routePatterns t).map (fun m => routeText m t),
    prescriber := (firstPatMatch prescriberPatterns t).map (fun m => trim (matchStr m t)),
    quantity := (reSearch quantityPat t).bind (fun m => grpStr 1 m t),
    refills := (reSearch refillsPat t).bind (fun m => grpStr 1 m t),
    instructions := (reSearch instructionsPat t).map (fun m => trim (matchStr m t)) }

/-- The four isUsedIn checks that name strategies 1 and 2 both perform
(lines 525-528 and 548-551): the quantity check tests containment in the
reversed direction, exactly as the source does. -/
def nameUsedElsewhere (med : Med) (candidateLower : List Char) : Bool :=
  (truthy med.frequency && includesStr (lowerStr (med.frequency.getD [])) candidateLower) ||
  (truthy med.route && includesStr (lowerStr (med.route.getD [])) candidateLower) ||
  (truthy med.instructions && includesStr (lowerStr (med.instructions.getD [])) candidateLower) ||
  (truthy med.quantity && includesStr candidateLower (lowerStr (med.quantity.getD [])))

/-- Name strategy 1: a mixed-case token such as cloNIDine (lines 518-537). -/
def nameStrat1 (t : List Char) (med : Med) : Med :=
  match reSearch mixedCasePat t with
  | none => med
  | some m =>
      match grpStr 1 m t with
      | none => med
      | some g =>
          if g.isEmpty then med
          else
            let candidateName := trim g
            if nameUsedElsewhere med (lowerStr candidateName) then med
            else { med with name := some candidateName }

/-- Name strategy 2: the capitalised words right before the dosage match,
only while the name is unset (lines 539-561). -/
def nameStrat2 (t : List Char) (dosageM : Option MatchRes) (med : Med) : Med :=
  if truthy med.name then med
  else
    match dosageM with
    | none => med
    | some dm =>
        let textBeforeDosage := trim (t.take dm.start)
        match reSearch namePat textBeforeDosage with
        | none => med
        | some nm =>
            match grpStr 1 nm textBeforeDosage with
            | none => med
            | some g =>
                if g.isEmpty then med
                else
                  let candidateName := trim g
                  if nameUsedElsewhere med (lowerStr candidateName) then med
                  else { med with name := some candidateName }

/-- The standalone-line filter of name strategy 3 (lines 574-584).  The float
comparison letters / length > 0.6 is the rational comparison
5 * letters > 3 * length: 0.6 and 3/5 round to the same double, and for the
admitted line lengths (at most 40) the correctly rounded quotient compares to
that double exactly as the rationals compare. -/
def drugNameLineFilter (line : List Char) : Bool :=
  reTest lettersThreePat line &&
  (3 ≤ line.length && line.length ≤ 40) &&
  excludePatterns.all (fun p => !reTest p line) &&
  3 * line.length < 5 * line.countP isAlphaC

/-- Name strategy 3: the first clean standalone line, only while the name is
unset (lines 563-589). -/
def nameStrat3 (lines : List (List Char)) (med : Med) : Med :=
  if truthy med.name then med
  else
    match lines.find? drugNameLineFilter with
    | none => med
    | some drugNameLine => { med with name := some (trim (trimNonWord drugNameLine)) }

/-- Name strategy 4: `commonly known as <word>`, only while the name is unset
(lines 591-596). -/
def nameStrat4 (t : List Char) (med : Med) : Med :=
  if truthy med.name then med
  else
    match reSearch commonlyKnownPat t with
    | none => med
    | some m =>
        match grpStr 1 m t with
        | none => med
        | some g => { med with name := some g }

/-- `parseMedicationFromText` (source lines 437-603). -/
def parseMedicationFromText (t : List Char) : Med :=
  let lines := linesOf t
  let dosageM := firstPatMatch dosagePatterns t
  nameStrat4 t (nameStrat3 lines (nameStrat2 t dosageM (nameStrat1 t (fieldsStage t dosageM))))

/-! ### parseMultipleMedications (source lines 608-650) -/

/-- `(text.match(/Rx\s*[:#]?\s*\d{5,}/gi) || []).length > 1` (line 609). -/
def hasMultipleRxNumbers (t : List Char) : Bool := 1 < countG rxCountPat t

/-- `/^[\*•]\s/m.test(text)` (line 610). -/
def hasBulletPoints (t : List Char) : Bool := reTest bulletPat t

/-- `/^\d+\.\s+[A-Z]/m.test(text)` (line 611). -/
def hasNumberedList (t : List Char) : Bool := reTest numberedListPat t

/-- The per-section candidates the multiple-medication path keeps
(lines 630-640): sections longer than 20 characters whose extraction found a
name and at least one of dosage, frequency, route. -/
def keptSectionMeds (t : List Char) : List Med :=
  (splitRe sectionDelimPat t).filterMap (fun sec =>
    let trimmed := trim sec
    if 20 < trimmed.length then
      let med := parseMedicationFromText trimmed
      if truthy med.name && (truthy med.dosage || truthy med.frequency || truthy med.route) then
        some med
      else none
    else none)

/-- `parseMultipleMedications` (source lines 608-650). -/
def parseMultipleMedications (t : List Char) : List Med :=
  if !hasMultipleRxNumbers t && !hasBulletPoints t && !hasNumberedList t then
    let singleMed := parseMedicationFromText t
    if truthy singleMed.name || truthy singleMed.dosage || truthy singleMed.frequency then
      [singleMed]
    else []
  else
    let medications := keptSectionMeds t
    if 0 < medications.length then medications
    else [parseMedicationFromText t]

/-! ### getMedicationConfidence (source lines 655-667) -/

/-- `Math.round` for the non-negative finite values this module produces. -/
def jsRound (q : ℚ) : ℤ := (q + 1 / 2).floor

/-- `getMedicationConfidence`: each present (truthy) weighted field adds its
weight to both the score and the total, so the quotient renormalises to the
populated subset. -/
def getMedicationConfidence (med : Med) : ℤ :=
  let st : Nat × Nat := (0, 0)
  let st := if truthy med.name then (st.1 + 30, st.2 + 30) else st
  let st := if truthy med.dosage then (st.1 + 25, st.2 + 25) else st
  let st := if truthy med.frequency then (st.1 + 20, st.2 + 20) else st
  let st := if truthy med.route then (st.1 + 10, st.2 + 10) else st
  let st := if truthy med.quantity then (st.1 + 10, st.2 + 10) else st
  let st := if truthy med.instructions then (st.1 + 5, st.2 + 5) else st
  if 0 < st.2 then jsRound ((st.1 : ℚ) / (st.2 : ℚ) * 100) else 0

/-! ### convertToNDCFormat (source lines 696-739) -/

/-- Helper for `dedupFirst`: drop elements already seen. -/
def dedupFirstAux (seen : List (List Char)) : List (List Char) → List (List Char)
  | [] => []
  | x :: xs =>
      if seen.contains x then dedupFirstAux seen xs
      else x :: dedupFirstAux (x :: seen) xs

/-- Deduplication keeping first occurrences, i.e. `[...new Set(xs)]`. -/
def dedupFirst (l : List (List Char)) : List (List Char) := dedupFirstAux [] l

/-- `convertToNDCFormat`. -/
def convertToNDCFormat (code : List Char) : List (List Char) :=
  let digits := code.filter isDigitC
  let formats : List (List Char) := []
  let formats :=
    if code.contains '-' then
      let segments := splitChar '-' code
      let formats :=
        if 2 ≤ segments.length then formats ++ [segments.getD 0 [] ++ '-' :: segments.getD 1 []]
        else formats
      if 3 ≤ segments.length then formats ++ [code] else formats
    else formats
  let formats :=
    if digits.length == 11 then
      formats ++
        [sub digits 0 4 ++ '-' :: sub digits 4 8 ++ '-' :: sub digits 8 10,
         sub digits 0 4 ++ '-' :: sub digits 4 8,
         sub digits 0 5 ++ '-' :: sub digits 5 8 ++ '-' :: sub digits 8 10,
         sub digits 0 5 ++ '-' :: sub digits 5 8,
         sub digits 0 5 ++ '-' :: sub digits 5 9 ++ '-' :: sub digits 9 10,
         sub digits 0 5 ++ '-' :: sub digits 5 9]
    else formats
  let formats :=
    if digits.length == 10 then
      let padded := '0' :: digits
      formats ++
        [sub padded 0 4 ++ '-' :: sub padded 4 8 ++ '-' :: sub padded 8 10,
         sub padded 0 5 ++ '-' :: sub padded 5 8 ++ '-' :: sub padded 8 10]
    else formats
  let formats :=
    if digits.length == 8 then formats ++ [sub digits 0 4 ++ '-' :: sub digits 4 8] else formats
  let formats :=
    if digits.length == 9 then formats ++ [sub digits 0 5 ++ '-' :: sub digits 5 9] else formats
  let noLeadingZeros := digits.dropWhile (fun c => c == '0')
  let formats :=
    if noLeadingZeros.length == 8 then
      formats ++
        [sub noLeadingZeros 0 4 ++ '-' :: sub noLeadingZeros 4 8,
         sub noLeadingZeros 0 5 ++ '-' :: sub noLeadingZeros 5 8]
    else formats
  dedupFirst formats

/-! ### The image pipeline: detectBlur, the four strategies, the selector -/

/-- Canvas ImageData: width, height and the interleaved RGBA byte buffer. -/
structure ImgData where
  width : Nat
  height : Nat
  data : List Nat
deriving Repr

/-- Read a byte of a buffer (canvas data always covers width*height*4 bytes;
an out-of-range read would be JS undefined and only happens off that
contract). -/
def dataAt (d : List Nat) (i : Nat) : Nat := (d.get? i).getD 0

/-- The Laplacian response |4*center - top - bottom - left - right| at an
interior pixel, read from the red channel as the source does (lines 51-64). -/
def lapAt (img : ImgData) (x y : Nat) : Nat :=
  let c : ℤ := dataAt img.data ((y * img.width + x) * 4)
  let t : ℤ := dataAt img.data (((y - 1) * img.width + x) * 4)
  let b : ℤ := dataAt img.data (((y + 1) * img.width + x) * 4)
  let l : ℤ := dataAt img.data ((y * img.width + (x - 1)) * 4)
  let r : ℤ := dataAt img.data ((y * img.width + (x + 1)) * 4)
  (4 * c - t - b - l - r).natAbs

/-- The interior pixels the blur loops visit: y from 1 while y < height-1,
x from 1 while x < width-1 (lines 51-52). -/
def blurCells (img : ImgData) : List (Nat × Nat) :=
  (List.range' 1 (img.height - 2)).flatMap
    (fun y => (List.range' 1 (img.width - 2)).map (fun x => (x, y)))

/-- `detectBlur` (lines 42-69): the mean Laplacian response over interior
pixels, times 10.  With no interior pixel the JS division is 0/0 = NaN,
modelled as `none` (NaN compares false against everything). -/
def detectBlur (img : ImgData) : Option ℚ :=
  let cells := blurCells img
  let laplacianSum : Nat := (cells.map (fun cell => lapAt img cell.1 cell.2)).sum
  let count := cells.length
  if count = 0 then none else some ((laplacianSum : ℚ) / (count : ℚ) * 10)

/-- `score < threshold` when the score may be NaN (`none`): NaN < x is false. -/
def blurLt (score : Option ℚ) (threshold : ℚ) : Bool :=
  match score with
  | none => false
  | some q => decide (q < threshold)

/-- Round half to even and clamp to [0, 255]: how a float is stored into a
Uint8ClampedArray. -/
def clampRound (q : ℚ) : Nat :=
  if q ≤ 0 then 0
  else if 255 ≤ q then 255
  else
    let f := q.floor.toNat
    let r := q - (q.floor : ℚ)
    if r < 1 / 2 then f
    else if 1 / 2 < r then f + 1
    else if f % 2 = 0 then f else f + 1

/-- The grayscale pass all strategies share (lines 126-129), luma weights
0.299/0.587/0.114 as exact decimals.  A trailing fragment shorter than one
RGBA pixel reads JS undefined for the missing channels, making the luma NaN,
which the clamped store writes as 0 (a canvas buffer never has one). -/
def grayscaleData : List Nat → List Nat
  | r :: g :: b :: a :: rest =>
      let q := clampRound ((299 * (r : ℚ) + 587 * (g : ℚ) + 114 * (b : ℚ)) / 1000)
      q :: q :: q :: a :: grayscaleData rest
  | [r, g, b] =>
      let q := clampRound ((299 * (r : ℚ) + 587 * (g : ℚ) + 114 * (b : ℚ)) / 1000)
      [q, q, q]
  | [_, _] => [0, 0]
  | [_] => [0]
  | [] => []

/-- The factor formula all contrast branches share (for example line 135). -/
def contrastFactor (contrast : ℚ) : ℚ :=
  (259 * (contrast + 255)) / (255 * (259 - contrast))

/-- One contrast pass: transform the red channel and copy it into green and
blue (lines 136-140, 170-174, 186-190).  The explicit Math.min/Math.max of
the high-contrast and aggressive branches is absorbed by the clamped store. -/
def contrastData (factor : ℚ) : List Nat → List Nat
  | r :: _g :: _b :: a :: rest =>
      let v := clampRound (factor * ((r : ℚ) - 128) + 128)
      v :: v :: v :: a :: contrastData factor rest
  | [r, _g, _b] =>
      let v := clampRound (factor * ((r : ℚ) - 128) + 128)
      [v, v, v]
  | [r, _g] =>
      let v := clampRound (factor * ((r : ℚ) - 128) + 128)
      [v, v]
  | [r] =>
      let v := clampRound (factor * ((r : ℚ) - 128) + 128)
      [v]
  | [] => []

/-- One threshold pass: `data[i] = data[i] > t ? 255 : 0` on the red channel,
copied into green and blue (lines 142-145 and the analogous loops). -/
def thresholdData (t : Nat) : List Nat → List Nat
  | r :: _g :: _b :: a :: rest =>
      let v := if t < r then 255 else 0
      v :: v :: v :: a :: thresholdData t rest
  | [r, _g, _b] => [if t < r then 255 else 0, if t < r then 255 else 0, if t < r then 255 else 0]
  | [r, _g] => [if t < r then 255 else 0, if t < r then 255 else 0]
  | [r] => [if t < r then 255 else 0]
  | [] => []

/-- The denoise average at red-channel index i, reading the pre-pass copy
(lines 152-156): an out-of-frame vertical neighbour is JS undefined, the
average NaN and the clamped store 0. -/
def denoiseAvgAt (w : Nat) (temp : List Nat) (i : Nat) : Nat :=
  if i < 4 * w || temp.length ≤ i + 4 * w then 0
  else
    clampRound (((dataAt temp (i - 4) : ℚ) + (dataAt temp i : ℚ) + (dataAt temp (i + 4) : ℚ) +
      (dataAt temp (i - 4 * w) : ℚ) + (dataAt temp (i + 4 * w) : ℚ)) / 5)

/-- The denoise write loop (`for i = 4; i < len - 4; i += 4`, writing indices
i, i+1, i+2 from the untouched temp copy), expressed per index: a non-alpha
byte whose pixel's red index lies in [4, len-4) gets that pixel's average. -/
def denoiseData (w : Nat) (data : List Nat) : List Nat :=
  data.mapIdx (fun j v =>
    let i := 4 * (j / 4)
    if j % 4 == 3 then v
    else if 4 ≤ i && i + 4 < data.length then denoiseAvgAt w data i
    else v)

/-- `applyPreprocessingStrategy` (lines 118-199): shared grayscale, then the
strategy branch, then the strategy's fixed threshold. -/
def applyPreprocessingStrategy (w : Nat) (data : List Nat) (strategy : String) : List Nat :=
  let gray := grayscaleData data
  if strategy == "high-contrast" then thresholdData 140 (contrastData (contrastFactor 2) gray)
  else if strategy == "denoise" then thresholdData 128 (denoiseData w gray)
  else if strategy == "aggressive" then thresholdData 120 (contrastData (contrastFactor (5 / 2)) gray)
  else thresholdData 128 (contrastData (contrastFactor (3 / 2)) gray)

/-- The strategy scoring loop (lines 310-313): sample every 16th byte from
index 4 while i < length - 4 and count differences over 200. -/
def edgeLoop (data : List Nat) : Nat → Nat → Nat
  | 0, _ => 0
  | f + 1, i =>
      if i + 4 < data.length then
        (if 200 < ((dataAt data i : ℤ) - (dataAt data (i + 4) : ℤ)).natAbs then 1 else 0) +
          edgeLoop data f (i + 16)
      else 0

/-- The edge count of one preprocessed buffer. -/
def edgeScore (data : List Nat) : Nat := edgeLoop data (data.length + 1) 4

/-- One entry of the `results` array (lines 291-316). -/
structure StratResult where
  strategy : String
  image : List Nat
  testScore : Nat
deriving Repr

/-- The enumeration order of line 290. -/
def strategies : List String := ["standard", "high-contrast", "denoise", "aggressive"]

/-- The loop of lines 293-321: one scored result per strategy, in order. -/
def stratResults (w : Nat) (data : List Nat) : List StratResult :=
  strategies.map (fun s =>
    let img := applyPreprocessingStrategy w data s
    { strategy := s, image := img, testScore := edgeScore img })

/-- Stable insertion for descending scores: an element is placed before the
first earlier-sorted element it strictly beats, so original order survives
among equal scores — the ES2019 stability guarantee of Array.prototype.sort
with the comparator (a, b) => b.testScore - a.testScore (line 324). -/
def insDesc (x : StratResult) : List StratResult → List StratResult
  | [] => [x]
  | y :: ys => if y.testScore ≤ x.testScore then x :: y :: ys else y :: insDesc x ys

/-- The stable descending sort of line 324. -/
def jsSortByScoreDesc : List StratResult → List StratResult
  | [] => []
  | x :: xs => insDesc x (jsSortByScoreDesc xs)

/-- `results.sort(...)` then `results[0]` (lines 324-325).  The results list
always carries all four strategies, so the default is never reached. -/
def chooseStrategy (w : Nat) (data : List Nat) : StratResult :=
  (jsSortByScoreDesc (stratResults w data)).headD
    { strategy := "standard", image := data, testScore := 0 }

/-- Modelled from the spec (claim C6's words, for comparison with the code):
select the strategy with the highest edge count, ties resolved by the
enumeration order standard, high-contrast, denoise, aggressive — a scan in
enumeration order replacing the incumbent only on a strictly higher score. -/
def specSelectStrategy (w : Nat) (data : List Nat) : String :=
  let sc := fun s => edgeScore (applyPreprocessingStrategy w data s)
  strategies.foldl (fun best s => if sc best < sc s then s else best) "standard"

/-- The outputs of preprocessImage from the post-rotation raster onward
(lines 276-339).  Decoding, scaling, rotation and base64 encoding are canvas
plumbing outside the byte-level model, so the normalized image and the
rotation flag are inputs; blur score, blur flag and strategy choice are
computed exactly as the source does. -/
structure PreOut where
  image : List Nat
  fullColorImage : List Nat
  width : Nat
  height : Nat
  isBlurry : Bool
  rotationCorrected : Bool
  strategy : String
deriving Repr

/-- Lines 276-339 of `preprocessImage`. -/
def preprocessCore (img : ImgData) (rotationCorrected : Bool) : PreOut :=
  let blurScore := detectBlur img
  let isBlurry := blurLt blurScore 100
  let best := chooseStrategy img.width img.data
  { image := best.image, fullColorImage := img.data, width := img.width,
    height := img.height, isBlurry := isBlurry,
    rotationCorrected := rotationCorrected, strategy := best.strategy }

/-! ### runOCR (source lines 366-432): worker lifecycle and error surface -/

/-- One recognised word of the Tesseract result; an absent property is
`none` (JS undefined). -/
structure WordModel where
  text : List Char
  bbox : Option (Nat × Nat × Nat × Nat)
  confidence : Option ℚ
deriving Repr

/-- One line of the result; `line.words` may be absent or not an array. -/
structure LineModel where
  words : Option (List WordModel)
deriving Repr

/-- The fields of `result.data` the source reads. -/
structure RecData where
  text : List Char
  confidence : ℚ
  lines : Option (List LineModel)
deriving Repr

/-- One flattened output word. -/
structure OutWord where
  text : List Char
  bbox : Nat × Nat × Nat × Nat
  confidence : ℚ
deriving Repr

/-- The word-flattening loops of lines 395-411: keep words with truthy text
and bbox, defaulting a falsy confidence to 0. -/
def extractWords (linesOpt : Option (List LineModel)) : List OutWord :=
  match linesOpt with
  | none => []
  | some ls =>
      ls.flatMap (fun line =>
        match line.words with
        | none => []
        | some ws =>
            ws.filterMap (fun word =>
              if word.text.isEmpty then none
              else
                match word.bbox with
                | none => none
                | some bb =>
                    some { text := word.text, bbox := bb,
                           confidence := word.confidence.getD 0 }))

/-- The OCRResult record runOCR returns (lines 415-426). -/
structure OCROut where
  text : List Char
  confidence : ℚ
  preprocessedImage : List Nat
  previewImage : List Nat
  previewImageWidth : Nat
  previewImageHeight : Nat
  isBlurry : Bool
  rotationCorrected : Bool
  preprocessingStrategy : String
  words : List OutWord
deriving Repr

/-- The worker-lifecycle events of one runOCR invocation. -/
inductive Ev where
  | createWorker
  | recognize
  | terminate
deriving DecidableEq, Repr

/-- The message of the single terminal error runOCR throws (line 430). -/
def failMsg : List Char := "Failed to extract text from image".toList

/-- `runOCR` as a function of its two awaited external outcomes: the
preprocessing promise and `worker.recognize`, either of which can reject.
Returns the result or the thrown message, plus the ordered worker events:
the try block terminates the worker after recognition (line 413); the catch
block terminates it and rethrows the single terminal error (lines 429-430). -/
def runOCRModel (preOutcome : Except Unit PreOut) (recOutcome : Except Unit RecData) :
    Except (List Char) OCROut × List Ev :=
  match preOutcome with
  | .error _ => (.error failMsg, [.createWorker, .terminate])
  | .ok pre =>
      match recOutcome with
      | .error _ => (.error failMsg, [.createWorker, .recognize, .terminate])
      | .ok d =>
          (.ok { text := d.text, confidence := d.confidence,
                 preprocessedImage := pre.image, previewImage := pre.fullColorImage,
                 previewImageWidth := pre.width, previewImageHeight := pre.height,
                 isBlurry := pre.isBlurry, rotationCorrected := pre.rotationCorrected,
                 preprocessingStrategy := pre.strategy, words := extractWords d.lines },
           [.createWorker, .recognize, .terminate])

/-! ## Theorems about the claims -/

/-- Math.round of 100 is 100 (the only rounding the renormalised confidence
ever performs). -/
theorem jsRound_100 : jsRound (100 : ℚ) = 100 := by
  unfold jsRound
  have h1 : (100 : ℤ) ≤ ((100 : ℚ) + 1 / 2).floor := Rat.le_floor.mpr (by norm_num)
  have h2 : ¬(101 : ℤ) ≤ ((100 : ℚ) + 1 / 2).floor := by
    intro h
    have := Rat.le_floor.mp h
    norm_num at this
  omega

/-- The renormalised score: a nonzero total divided by itself, times 100,
rounds to 100. -/
theorem jsRound_div_self_mul (q : ℚ) (hq : q ≠ 0) : jsRound (q / q * 100) = 100 := by
  rw [div_self hq, one_mul]
  exact jsRound_100

/-- C1: for every MedicationCandidate the derived confidence is 100 exactly
when at least one of the weighted fields name, dosage, frequency, route,
quantity, instructions is populated, and 0 when none is: each present field
adds its weight to both numerator and denominator, so the score renormalises
to the populated subset and getMedicationConfidence returns only 0 or 100. -/
theorem confidence_always_0_or_100 (med : Med) :
    getMedicationConfidence med =
      if (truthy med.name || truthy med.dosage || truthy med.frequency || truthy med.route ||
          truthy med.quantity || truthy med.instructions) = true then 100 else 0 := by
  unfold getMedicationConfidence
  cases hn : truthy med.name <;> cases hd : truthy med.dosage <;>
    cases hf : truthy med.frequency <;> cases hr : truthy med.route <;>
      cases hq : truthy med.quantity <;> cases hi : truthy med.instructions <;>
        simp [hn, hd, hf, hr, hq, hi] <;> exact jsRound_100

/-- C5: convertToNDCFormat("12345678901") deterministically produces exactly
the six hyphenation variants 1234-5678-90, 1234-5678, 12345-678-90,
12345-678, 12345-6789-0, 12345-6789, without duplicates (the produced list
is this set, so any order-independent comparison against it succeeds). -/
theorem ndc_formats_of_11_digits :
    convertToNDCFormat ("12345678901".toList) =
      ["1234-5678-90".toList, "1234-5678".toList, "12345-678-90".toList,
       "12345-678".toList, "12345-6789-0".toList, "12345-6789".toList] ∧
    (convertToNDCFormat ("12345678901".toList)).Nodup := by
  constructor <;> decide

/-- C3 counterexample: on the scenario text the extracted frequency is
"Take 1 tablet" — the take-N-tablet pattern has the highest priority and
matches first — which does not match "once daily" (not even as a
case-insensitive substring), refuting the claimed frequency value. -/
theorem scenario_label_frequency_counterexample :
    (parseMedicationFromText
        ("Lisinopril 10mg\nTake 1 tablet by mouth once daily\nQty: 30\nRefills: 2".toList)).frequency =
      some ("Take 1 tablet".toList) ∧
    includesStr (lowerStr ("Take 1 tablet".toList)) (lowerStr ("once daily".toList)) = false := by
  constructor <;> decide

/-- C3 amended: parsing the scenario text produces exactly one
MedicationCandidate with name Lisinopril, dosage "10 mg", route mouth,
quantity 30, refills 2 and derived confidence 100 — but with frequency
"Take 1 tablet" (the higher-priority take-N-tablet pattern), not a value
matching "once daily". -/
theorem scenario_label_parse :
    parseMultipleMedications
        ("Lisinopril 10mg\nTake 1 tablet by mouth once daily\nQty: 30\nRefills: 2".toList) =
      [{ name := some ("Lisinopril".toList), dosage := some ("10 mg".toList),
         frequency := some ("Take 1 tablet".toList), route := some ("mouth".toList),
         prescriber := none, quantity := some ("30".toList), refills := some ("2".toList),
         instructions := none }] ∧
    getMedicationConfidence
      { name := some ("Lisinopril".toList), dosage := some ("10 mg".toList),
        frequency := some ("Take 1 tablet".toList), route := some ("mouth".toList),
        prescriber := none, quantity := some ("30".toList), refills := some ("2".toList),
        instructions := none } = 100 := by
  refine ⟨by decide, ?_⟩
  unfold getMedicationConfidence
  have h1 : truthy (some ("Lisinopril".toList)) = true := by decide
  have h2 : truthy (some ("10 mg".toList)) = true := by decide
  have h3 : truthy (some ("Take 1 tablet".toList)) = true := by decide
  have h4 : truthy (some ("mouth".toList)) = true := by decide
  have h5 : truthy (some ("30".toList)) = true := by decide
  simp [h1, h2, h3, h4, h5, truthy]
  exact jsRound_100

/-- C2 counterexample: the block "1. A" is classified multiple by the
numbered-list rule and its sectioned extraction keeps nothing, yet
parseMultipleMedications returns a list of exactly one candidate with all
fields empty — the fallback enforces no name/dosage/frequency requirement. -/
theorem multiple_fallback_empty_singleton :
    hasNumberedList ("1. A".toList) = true ∧
    keptSectionMeds ("1. A".toList) = [] ∧
    parseMultipleMedications ("1. A".toList) = [({} : Med)] := by
  refine ⟨by decide, by decide, by decide⟩

/-- C2 amended: for every block classified multiple whose sectioned
extraction keeps zero candidates, parseMultipleMedications falls back to a
single extraction over the whole block and returns it unconditionally as a
one-element list — the fallback path has no requirement that any of name,
dosage, frequency was found, so that one candidate may have every field
empty. -/
theorem multiple_fallback_unconditional (t : List Char)
    (hclass : (hasMultipleRxNumbers t || hasBulletPoints t || hasNumberedList t) = true)
    (hkept : keptSectionMeds t = []) :
    parseMultipleMedications t = [parseMedicationFromText t] := by
  have hcond : (!hasMultipleRxNumbers t && !hasBulletPoints t && !hasNumberedList t) = false := by
    cases h1 : hasMultipleRxNumbers t <;> cases h2 : hasBulletPoints t <;>
      cases h3 : hasNumberedList t <;> simp_all
  unfold parseMultipleMedications
  rw [hcond, hkept]
  simp

/-- Witness for the amended C2 theorem at the concrete block "1. A". -/
theorem multiple_fallback_unconditional_witness :
    parseMultipleMedications ("1. A".toList) = [parseMedicationFromText ("1. A".toList)] :=
  multiple_fallback_unconditional ("1. A".toList) (by decide) (by decide)

/-- C8 counterexample: the single terminal message runOCR throws is
"Failed to extract text from image" with a capital F — not the claimed
all-lowercase "failed to extract text from image". -/
theorem runocr_message_capital :
    (runOCRModel (Except.error ()) (Except.error ())).1 = Except.error failMsg ∧
    failMsg ≠ "failed to extract text from image".toList := by
  constructor
  · rfl
  · decide

/-- C8 amended: every invocation of runOCR terminates the Tesseract worker
exactly once — as the last worker event on every exit path, success or
failure — and any pipeline failure surfaces to the caller as the single
terminal error "Failed to extract text from image" (with a capital F). -/
theorem runocr_terminates_worker_once (preOutcome : Except Unit PreOut)
    (recOutcome : Except Unit RecData) :
    (runOCRModel preOutcome recOutcome).2.count Ev.terminate = 1 ∧
    (runOCRModel preOutcome recOutcome).2.getLast? = some Ev.terminate ∧
    ∀ e, (runOCRModel preOutcome recOutcome).1 = Except.error e → e = failMsg := by
  cases preOutcome <;> cases recOutcome <;>
    exact ⟨rfl, rfl, fun e he => by simp_all [runOCRModel]⟩

/-- Witness for the C8 theorem at concrete outcomes: a failing recognition
call still ends with a worker termination and surfaces the terminal error. -/
theorem runocr_terminates_worker_once_witness :
    (runOCRModel (Except.error ()) (Except.error ())).2.count Ev.terminate = 1 ∧
    (runOCRModel (Except.error ()) (Except.error ())).2.getLast? = some Ev.terminate ∧
    ∀ e, (runOCRModel (Except.error ()) (Except.error ())).1 = Except.error e → e = failMsg :=
  runocr_terminates_worker_once (Except.error ()) (Except.error ())

/-- The interior-pixel count is (height - 2) * (width - 2). -/
theorem blurCells_length (img : ImgData) :
    (blurCells img).length = (img.height - 2) * (img.width - 2) := by
  unfold blurCells
  rw [List.length_flatMap]
  simp [Function.comp_def, List.length_map, List.length_range']

/-- A 3x3 all-black frame whose centre pixel has red value 1: its single
interior pixel has Laplacian response 4, so the blur score is exactly 40. -/
def blurry40Img : ImgData :=
  ⟨3, 3,
   [0, 0, 0, 255, 0, 0, 0, 255, 0, 0, 0, 255,
    0, 0, 0, 255, 1, 0, 0, 255, 0, 0, 0, 255,
    0, 0, 0, 255, 0, 0, 0, 255, 0, 0, 0, 255]⟩

/-- A 1x1 frame: no interior pixel at all. -/
def oneByOneImg : ImgData := ⟨1, 1, [0, 0, 0, 255]⟩

/-- C10: detectBlur averages over interior pixels only.  For width ≥ 3 and
height ≥ 3 the divisor — the interior-pixel count — is positive and the blur
score is a well-defined non-negative rational; for width ≤ 2 or height ≤ 2
the loop body never runs, the 0/0 division is NaN (modelled `none`), and the
NaN < 100 comparison is false, so the image is classified not blurry. -/
theorem blur_interior_only (img : ImgData) :
    (3 ≤ img.width → 3 ≤ img.height →
      0 < (blurCells img).length ∧ ∃ q, detectBlur img = some q ∧ 0 ≤ q) ∧
    ((img.width ≤ 2 ∨ img.height ≤ 2) →
      detectBlur img = none ∧ ∀ rot, (preprocessCore img rot).isBlurry = false) := by
  constructor
  · intro hw hh
    have hlen : 0 < (blurCells img).length := by
      rw [blurCells_length]
      exact Nat.mul_pos (by omega) (by omega)
    refine ⟨hlen, ?_⟩
    unfold detectBlur
    rw [if_neg (Nat.pos_iff_ne_zero.mp hlen)]
    exact ⟨_, rfl, by positivity⟩
  · intro h
    have hlen : (blurCells img).length = 0 := by
      rw [blurCells_length]
      rcases h with h | h
      · rw [Nat.sub_eq_zero_of_le (by omega : img.width ≤ 2), Nat.mul_zero]
      · rw [Nat.sub_eq_zero_of_le (by omega : img.height ≤ 2), Nat.zero_mul]
    have hnone : detectBlur img = none := by
      unfold detectBlur
      rw [if_pos hlen]
    refine ⟨hnone, fun rot => ?_⟩
    show blurLt (detectBlur img) 100 = false
    rw [hnone]
    rfl

/-- Witness for the C10 theorem: the 3x3 frame has a positive interior count
and a well-defined non-negative score, while the 1x1 frame gets a NaN score
and is classified not blurry. -/
theorem blur_interior_only_witness :
    (0 < (blurCells blurry40Img).length ∧
      ∃ q, detectBlur blurry40Img = some q ∧ 0 ≤ q) ∧
    (detectBlur oneByOneImg = none ∧
      ∀ rot, (preprocessCore oneByOneImg rot).isBlurry = false) :=
  ⟨(blur_interior_only blurry40Img).1 (by decide) (by decide),
   (blur_interior_only oneByOneImg).2 (Or.inl (by decide))⟩

/-- C7: isBlurry is set exactly when the Laplacian blur score is below 100
(a NaN score of a degenerate frame compares false), and the score gates
nothing: the returned image and winning strategy are exactly those of the
strategy selection whatever the flag says, runOCR invokes recognition once
regardless of the flag, and the concrete 3x3 frame with blur score 40 is
marked blurry yet its outputs are computed the same way. -/
theorem blur_flag_informational :
    (∀ (img : ImgData) (rot : Bool),
        ((preprocessCore img rot).isBlurry = true ↔
          ∃ q, detectBlur img = some q ∧ q < 100)) ∧
    (∀ (img : ImgData) (rot : Bool),
        (preprocessCore img rot).strategy = (chooseStrategy img.width img.data).strategy ∧
        (preprocessCore img rot).image = (chooseStrategy img.width img.data).image) ∧
    (∀ (pre : PreOut) (recOutcome : Except Unit RecData),
        (runOCRModel (Except.ok pre) recOutcome).2.count Ev.recognize = 1) ∧
    (detectBlur blurry40Img = some 40 ∧
      (preprocessCore blurry40Img false).isBlurry = true ∧
      (preprocessCore blurry40Img false).strategy =
        (chooseStrategy blurry40Img.width blurry40Img.data).strategy) := by
  have hdb : detectBlur blurry40Img = some 40 := by
    have hcells : blurCells blurry40Img = [(1, 1)] := by decide
    have hlap : lapAt blurry40Img 1 1 = 4 := by decide
    unfold detectBlur
    rw [hcells]
    simp only [List.map_cons, List.map_nil, hlap, List.sum_cons, List.sum_nil,
      List.length_cons, List.length_nil]
    norm_num
  refine ⟨?_, ?_, ?_, hdb, ?_, rfl⟩
  · intro img rot
    show blurLt (detectBlur img) 100 = true ↔ _
    cases hd : detectBlur img with
    | none => simp [blurLt]
    | some q => simp [blurLt, decide_eq_true_eq]
  · intro img rot
    exact ⟨rfl, rfl⟩
  · intro pre recOutcome
    cases recOutcome <;> rfl
  · show blurLt (detectBlur blurry40Img) 100 = true
    rw [hdb]
    show decide ((40 : ℚ) < 100) = true
    rw [decide_eq_true_eq]
    norm_num

/-- Stable insertion never produces the empty list. -/
theorem insDesc_ne_nil (x : StratResult) (l : List StratResult) : insDesc x l ≠ [] := by
  cases l with
  | nil => simp [insDesc]
  | cons y ys =>
      unfold insDesc
      split <;> simp

/-- The head after one stable insertion: the inserted element wins ties
against the sorted tail's head. -/
theorem insDesc_headD (x d : StratResult) (l : List StratResult) :
    (insDesc x l).headD d =
      match l with
      | [] => x
      | y :: _ => if y.testScore ≤ x.testScore then x else y := by
  cases l with
  | nil => rfl
  | cons y ys =>
      unfold insDesc
      split <;> simp [*]

/-- The earliest element of maximal testScore, ties preferring the earlier
element (with a default for the empty list). -/
def firstMaxBy : List StratResult → StratResult → StratResult
  | [], d => d
  | x :: xs, _ =>
      if (firstMaxBy xs x).testScore ≤ x.testScore then x else firstMaxBy xs x

/-- The head of the stable descending sort is the earliest maximal element. -/
theorem sortDesc_headD : ∀ (l : List StratResult) (d : StratResult),
    (jsSortByScoreDesc l).headD d = firstMaxBy l d := by
  intro l
  induction l with
  | nil => intro d; rfl
  | cons x xs ih =>
      intro d
      show (insDesc x (jsSortByScoreDesc xs)).headD d = _
      rw [insDesc_headD]
      cases hxs : jsSortByScoreDesc xs with
      | nil =>
          cases xs with
          | nil => simp [firstMaxBy]
          | cons y ys => exact absurd hxs (insDesc_ne_nil y (jsSortByScoreDesc ys))
      | cons y ys =>
          have hy : y = firstMaxBy xs x := by
            have h := ih x
            rw [hxs] at h
            simpa using h
          show (if y.testScore ≤ x.testScore then x else y) = firstMaxBy (x :: xs) d
          rw [hy]
          rfl

/-- The selection scan of the spec-side selector, factored over an arbitrary
score function: replace the incumbent only on a strictly higher score. -/
def scanBest (g : String → Nat) : String → List String → String
  | acc, [] => acc
  | acc, s :: ss => scanBest g (if g acc < g s then s else acc) ss

/-- The spec selector's foldl is that scan. -/
theorem foldl_eq_scanBest (g : String → Nat) :
    ∀ (ss : List String) (acc : String),
      ss.foldl (fun best s => if g best < g s then s else best) acc = scanBest g acc ss := by
  intro ss
  induction ss with
  | nil => intro acc; rfl
  | cons s ss ih =>
      intro acc
      simp only [List.foldl, scanBest]
      exact ih _

/-- The scan's result never scores below the incumbent. -/
theorem scanBest_le (g : String → Nat) :
    ∀ (ss : List String) (acc : String), g acc ≤ g (scanBest g acc ss) := by
  intro ss
  induction ss with
  | nil => intro acc; exact le_refl _
  | cons s ss ih =>
      intro acc
      show g acc ≤ g (scanBest g (if g acc < g s then s else acc) ss)
      by_cases h : g acc < g s
      · rw [if_pos h]
        exact le_trans (le_of_lt h) (ih s)
      · rw [if_neg h]
        exact ih acc

/-- Unfolding the scan against its own head: the incumbent survives exactly
when the best of the tail does not strictly beat it. -/
theorem scanBest_cons (g : String → Nat) :
    ∀ (ss : List String) (acc s : String),
      scanBest g acc (s :: ss) =
        if g (scanBest g s ss) ≤ g acc then acc else scanBest g s ss := by
  intro ss
  induction ss with
  | nil =>
      intro acc s
      simp only [scanBest]
      by_cases h : g acc < g s
      · rw [if_pos h, if_neg (by omega)]
      · rw [if_neg h, if_pos (by omega)]
  | cons t ss ih =>
      intro acc s
      show scanBest g (if g acc < g s then s else acc) (t :: ss) = _
      by_cases h1 : g acc < g s
      · rw [if_pos h1]
        have hge : g s ≤ g (scanBest g s (t :: ss)) := scanBest_le g (t :: ss) s
        have hgt : ¬g (scanBest g s (t :: ss)) ≤ g acc := by omega
        rw [if_neg hgt]
      · rw [if_neg h1, ih acc t, ih s t]
        by_cases h2 : g (scanBest g t ss) ≤ g s
        · have hsa : g s ≤ g acc := by omega
          have hma : g (scanBest g t ss) ≤ g acc := by omega
          rw [if_pos h2, if_pos hma, if_pos hsa]
        · rw [if_neg h2]

/-- One strategy's edge count on a given normalized image. -/
def edgeOf (w : Nat) (data : List Nat) (s : String) : Nat :=
  edgeScore (applyPreprocessingStrategy w data s)

/-- One strategy's scored result entry (the let-expanded loop body of
`stratResults`). -/
def stratOf (w : Nat) (data : List Nat) (s : String) : StratResult :=
  { strategy := s, image := applyPreprocessingStrategy w data s,
    testScore := edgeScore (applyPreprocessingStrategy w data s) }

/-- Scanning from an incumbent that also heads the list just skips the
self-comparison. -/
theorem scanBest_head_self (g : String → Nat) (acc : String) (ss : List String) :
    scanBest g acc (acc :: ss) = scanBest g acc ss := by
  show scanBest g (if g acc < g acc then acc else acc) ss = scanBest g acc ss
  rw [ite_self]

/-- The stable-sorted head over mapped records follows the scan. -/
theorem firstMaxBy_scan (g : String → Nat) (mk : String → StratResult)
    (hsc : ∀ s, (mk s).testScore = g s) :
    ∀ (ss : List String) (acc : String) (d : StratResult),
      firstMaxBy (mk acc :: ss.map mk) d = mk (scanBest g acc ss) := by
  intro ss
  induction ss with
  | nil =>
      intro acc d
      simp [firstMaxBy, scanBest]
  | cons s ss ih =>
      intro acc d
      show (if (firstMaxBy (mk s :: ss.map mk) (mk acc)).testScore ≤ (mk acc).testScore
          then mk acc else firstMaxBy (mk s :: ss.map mk) (mk acc)) = _
      rw [ih s (mk acc), hsc, hsc, scanBest_cons g ss acc s]
      by_cases h : g (scanBest g s ss) ≤ g acc
      · rw [if_pos h, if_pos h]
      · rw [if_neg h, if_neg h]

/-- C6: for every normalized image the Preprocessing Strategy Selector
returns the strategy whose edge count is maximal among the four, ties going
to the earliest in the enumeration order standard, high-contrast, denoise,
aggressive (the stable sort keeps equal scores in enumeration order and the
selector takes the head); in particular the selector is total — it always
returns some strategy, and when all four scores tie (for example all zero)
"standard" wins, which the spec-side scan expresses by starting from
"standard" and replacing only on strictly higher scores. -/
theorem strategy_selector_argmax (w : Nat) (data : List Nat) :
    (chooseStrategy w data).strategy = specSelectStrategy w data := by
  have h1 : chooseStrategy w data =
      (jsSortByScoreDesc (stratOf w data "standard" ::
        (["high-contrast", "denoise", "aggressive"].map (stratOf w data)))).headD
        { strategy := "standard", image := data, testScore := 0 } := rfl
  have h2 : specSelectStrategy w data =
      ["standard", "high-contrast", "denoise", "aggressive"].foldl
        (fun best s => if edgeOf w data best < edgeOf w data s then s else best)
        "standard" := rfl
  rw [h1, sortDesc_headD,
    firstMaxBy_scan (edgeOf w data) (stratOf w data) (fun s => rfl), h2,
    foldl_eq_scanBest, scanBest_head_self]
  rfl

/-- A for-loop with break over a pattern list: prefix patterns that do not
match are skipped, and the first matching pattern's result is kept. -/
theorem findSome?_eq_of_prefix_none {α β : Type} (f : α → Option β) :
    ∀ (l1 : List α) (p : α) (l2 : List α) (v : β),
      (∀ q ∈ l1, f q = none) → f p = some v →
      (l1 ++ p :: l2).findSome? f = some v := by
  intro l1
  induction l1 with
  | nil =>
      intro p l2 v _ hp
      simp [List.findSome?_cons, hp]
  | cons a l1 ih =>
      intro p l2 v hnone hp
      have ha : f a = none := hnone a (List.mem_cons_self a l1)
      simp only [List.cons_append, List.findSome?_cons, ha]
      exact ih p l2 v (fun q hq => hnone q (List.mem_cons_of_mem a hq)) hp

/-- Name strategy 1 either leaves the record alone or only sets the name. -/
theorem nameStrat1_shape (t : List Char) (med : Med) :
    nameStrat1 t med = med ∨ ∃ n, nameStrat1 t med = { med with name := some n } := by
  unfold nameStrat1
  repeat' first
    | exact Or.inl rfl
    | exact Or.inr ⟨_, rfl⟩
    | split
    | simp only []

/-- Name strategy 2 either leaves the record alone or only sets the name. -/
theorem nameStrat2_shape (t : List Char) (dM : Option MatchRes) (med : Med) :
    nameStrat2 t dM med = med ∨ ∃ n, nameStrat2 t dM med = { med with name := some n } := by
  unfold nameStrat2
  repeat' first
    | exact Or.inl rfl
    | exact Or.inr ⟨_, rfl⟩
    | split
    | simp only []

/-- Name strategy 3 either leaves the record alone or only sets the name. -/
theorem nameStrat3_shape (ls : List (List Char)) (med : Med) :
    nameStrat3 ls med = med ∨ ∃ n, nameStrat3 ls med = { med with name := some n } := by
  unfold nameStrat3
  repeat' first
    | exact Or.inl rfl
    | exact Or.inr ⟨_, rfl⟩
    | split

/-- Name strategy 4 either leaves the record alone or only sets the name. -/
theorem nameStrat4_shape (t : List Char) (med : Med) :
    nameStrat4 t med = med ∨ ∃ n, nameStrat4 t med = { med with name := some n } := by
  unfold nameStrat4
  repeat' first
    | exact Or.inl rfl
    | exact Or.inr ⟨_, rfl⟩
    | split

/-- Name strategy 1 never touches the pattern-driven fields. -/
theorem nameStrat1_fields (t : List Char) (med : Med) :
    (nameStrat1 t med).dosage = med.dosage ∧ (nameStrat1 t med).frequency = med.frequency ∧
    (nameStrat1 t med).route = med.route ∧ (nameStrat1 t med).prescriber = med.prescriber := by
  rcases nameStrat1_shape t med with h | ⟨n, h⟩ <;> rw [h] <;> exact ⟨rfl, rfl, rfl, rfl⟩

/-- Name strategy 2 never touches the pattern-driven fields. -/
theorem nameStrat2_fields (t : List Char) (dM : Option MatchRes) (med : Med) :
    (nameStrat2 t dM med).dosage = med.dosage ∧
    (nameStrat2 t dM med).frequency = med.frequency ∧
    (nameStrat2 t dM med).route = med.route ∧
    (nameStrat2 t dM med).prescriber = med.prescriber := by
  rcases nameStrat2_shape t dM med with h | ⟨n, h⟩ <;> rw [h] <;> exact ⟨rfl, rfl, rfl, rfl⟩

/-- Name strategy 3 never touches the pattern-driven fields. -/
theorem nameStrat3_fields (ls : List (List Char)) (med : Med) :
    (nameStrat3 ls med).dosage = med.dosage ∧ (nameStrat3 ls med).frequency = med.frequency ∧
    (nameStrat3 ls med).route = med.route ∧ (nameStrat3 ls med).prescriber = med.prescriber := by
  rcases nameStrat3_shape ls med with h | ⟨n, h⟩ <;> rw [h] <;> exact ⟨rfl, rfl, rfl, rfl⟩

/-- Name strategy 4 never touches the pattern-driven fields. -/
theorem nameStrat4_fields (t : List Char) (med : Med) :
    (nameStrat4 t med).dosage = med.dosage ∧ (nameStrat4 t med).frequency = med.frequency ∧
    (nameStrat4 t med).route = med.route ∧ (nameStrat4 t med).prescriber = med.prescriber := by
  rcases nameStrat4_shape t med with h | ⟨n, h⟩ <;> rw [h] <;> exact ⟨rfl, rfl, rfl, rfl⟩

/-- Strategy 2 does nothing once the name is truthy. -/
theorem nameStrat2_keeps (t : List Char) (dM : Option MatchRes) (med : Med)
    (h : truthy med.name = true) : nameStrat2 t dM med = med := by
  unfold nameStrat2
  simp [h]

/-- Strategy 3 does nothing once the name is truthy. -/
theorem nameStrat3_keeps (ls : List (List Char)) (med : Med)
    (h : truthy med.name = true) : nameStrat3 ls med = med := by
  unfold nameStrat3
  simp [h]

/-- Strategy 4 does nothing once the name is truthy. -/
theorem nameStrat4_keeps (t : List Char) (med : Med)
    (h : truthy med.name = true) : nameStrat4 t med = med := by
  unfold nameStrat4
  simp [h]

/-- The pattern-driven fields of the full parse are those of the fields
stage: the name cascade never disturbs them. -/
theorem parse_base_fields (t : List Char) :
    (parseMedicationFromText t).dosage =
      (fieldsStage t (firstPatMatch dosagePatterns t)).dosage ∧
    (parseMedicationFromText t).frequency =
      (fieldsStage t (firstPatMatch dosagePatterns t)).frequency ∧
    (parseMedicationFromText t).route =
      (fieldsStage t (firstPatMatch dosagePatterns t)).route ∧
    (parseMedicationFromText t).prescriber =
      (fieldsStage t (firstPatMatch dosagePatterns t)).prescriber := by
  have e : parseMedicationFromText t =
      nameStrat4 t (nameStrat3 (linesOf t)
        (nameStrat2 t (firstPatMatch dosagePatterns t)
          (nameStrat1 t (fieldsStage t (firstPatMatch dosagePatterns t))))) := rfl
  rw [e]
  refine ⟨?_, ?_, ?_, ?_⟩
  · rw [(nameStrat4_fields _ _).1, (nameStrat3_fields _ _).1, (nameStrat2_fields _ _ _).1,
      (nameStrat1_fields _ _).1]
  · rw [(nameStrat4_fields _ _).2.1, (nameStrat3_fields _ _).2.1,
      (nameStrat2_fields _ _ _).2.1, (nameStrat1_fields _ _).2.1]
  · rw [(nameStrat4_fields _ _).2.2.1, (nameStrat3_fields _ _).2.2.1,
      (nameStrat2_fields _ _ _).2.2.1, (nameStrat1_fields _ _).2.2.1]
  · rw [(nameStrat4_fields _ _).2.2.2, (nameStrat3_fields _ _).2.2.2,
      (nameStrat2_fields _ _ _).2.2.2, (nameStrat1_fields _ _).2.2.2]

/-- C4: first-match-wins and never-overwrite.  For each pattern-driven field
(dosage, frequency, route, prescriber), whenever every pattern before `p` in
the field's priority list fails on the text and `p` matches, the parsed field
carries `p`'s extraction — lower-priority patterns cannot change it.  The
parser is the fields stage followed by the four name fallback strategies, the
fields stage leaves the name unset, and once the name is set (to a truthy
value) strategies 2-4 return the record unchanged, so no later strategy
overwrites an earlier one's name. -/
theorem parse_first_match_wins :
    (∀ (t : List Char) (l1 : List Re) (p : Re) (l2 : List Re) (m : MatchRes),
        dosagePatterns = l1 ++ p :: l2 → (∀ q ∈ l1, reSearch q t = none) →
        reSearch p t = some m →
        (parseMedicationFromText t).dosage = some (dosageText m t)) ∧
    (∀ (t : List Char) (l1 : List Re) (p : Re) (l2 : List Re) (m : MatchRes),
        frequencyPatterns = l1 ++ p :: l2 → (∀ q ∈ l1, reSearch q t = none) →
        reSearch p t = some m →
        (parseMedicationFromText t).frequency = some (trim (matchStr m t))) ∧
    (∀ (t : List Char) (l1 : List Re) (p : Re) (l2 : List Re) (m : MatchRes),
        routePatterns = l1 ++ p :: l2 → (∀ q ∈ l1, reSearch q t = none) →
        reSearch p t = some m →
        (parseMedicationFromText t).route = some (routeText m t)) ∧
    (∀ (t : List Char) (l1 : List Re) (p : Re) (l2 : List Re) (m : MatchRes),
        prescriberPatterns = l1 ++ p :: l2 → (∀ q ∈ l1, reSearch q t = none) →
        reSearch p t = some m →
        (parseMedicationFromText t).prescriber = some (trim (matchStr m t))) ∧
    (∀ t : List Char,
        parseMedicationFromText t =
          nameStrat4 t (nameStrat3 (linesOf t)
            (nameStrat2 t (firstPatMatch dosagePatterns t)
              (nameStrat1 t (fieldsStage t (firstPatMatch dosagePatterns t)))))) ∧
    (∀ (t : List Char) (dM : Option MatchRes), (fieldsStage t dM).name = none) ∧
    (∀ (t : List Char) (dM : Option MatchRes) (ls : List (List Char)) (med : Med)
        (v : List Char), med.name = some v → v ≠ [] →
        (nameStrat4 t (nameStrat3 ls (nameStrat2 t dM med))).name = some v) := by
  refine ⟨?_, ?_, ?_, ?_, fun t => rfl, fun t dM => rfl, ?_⟩
  · intro t l1 p l2 m hsplit hnone hp
    rw [(parse_base_fields t).1]
    show (firstPatMatch dosagePatterns t).map (fun mm => dosageText mm t) =
      some (dosageText m t)
    have hfind : firstPatMatch dosagePatterns t = some m := by
      unfold firstPatMatch
      rw [hsplit]
      exact findSome?_eq_of_prefix_none _ l1 p l2 m hnone hp
    rw [hfind]
    rfl
  · intro t l1 p l2 m hsplit hnone hp
    rw [(parse_base_fields t).2.1]
    show (firstPatMatch frequencyPatterns t).map (fun mm => trim (matchStr mm t)) =
      some (trim (matchStr m t))
    have hfind : firstPatMatch frequencyPatterns t = some m := by
      unfold firstPatMatch
      rw [hsplit]
      exact findSome?_eq_of_prefix_none _ l1 p l2 m hnone hp
    rw [hfind]
    rfl
  · intro t l1 p l2 m hsplit hnone hp
    rw [(parse_base_fields t).2.2.1]
    show (firstPatMatch routePatterns t).map (fun mm => routeText mm t) =
      some (routeText m t)
    have hfind : firstPatMatch routePatterns t = some m := by
      unfold firstPatMatch
      rw [hsplit]
      exact findSome?_eq_of_prefix_none _ l1 p l2 m hnone hp
    rw [hfind]
    rfl
  · intro t l1 p l2 m hsplit hnone hp
    rw [(parse_base_fields t).2.2.2]
    show (firstPatMatch prescriberPatterns t).map (fun mm => trim (matchStr mm t)) =
      some (trim (matchStr m t))
    have hfind : firstPatMatch prescriberPatterns t = some m := by
      unfold firstPatMatch
      rw [hsplit]
      exact findSome?_eq_of_prefix_none _ l1 p l2 m hnone hp
    rw [hfind]
    rfl
  · intro t dM ls med v hname hne
    have htr : truthy med.name = true := by
      rw [hname]
      cases v with
      | nil => exact absurd rfl hne
      | cons a l => rfl
    rw [nameStrat2_keeps t dM med htr, nameStrat3_keeps ls med htr,
      nameStrat4_keeps t med htr]
    exact hname

/-- Witness for the C4 theorem: the bare-number dosage pattern (priority 2)
decides the dosage on a text the parenthesised pattern (priority 1) misses,
and a record whose name is already set passes through strategies 2-4
unchanged even though the text would let strategy 4 find a different name. -/
theorem parse_first_match_wins_witness :
    (parseMedicationFromText ("Lisinopril 10mg".toList)).dosage =
      some (dosageText ⟨11, 15, [(1, 11, 13)]⟩ ("Lisinopril 10mg".toList)) ∧
    (nameStrat4 ("commonly known as Advil".toList)
        (nameStrat3 [] (nameStrat2 ("commonly known as Advil".toList) none
          { name := some ("Foo".toList) }))).name = some ("Foo".toList) := by
  constructor
  · exact parse_first_match_wins.1 ("Lisinopril 10mg".toList)
      [rseq [chr '(', .grp 1 decNumRe, spaces0, doseUnitsRe, chr ')']]
      (rseq [.grp 1 decNumRe, spaces0, doseUnitsRe, .wordB]) []
      ⟨11, 15, [(1, 11, 13)]⟩ rfl
      (by
        intro q hq
        rw [List.mem_singleton] at hq
        subst hq
        decide)
      (by decide)
  · exact parse_first_match_wins.2.2.2.2.2.2 ("commonly known as Advil".toList) none []
      { name := some ("Foo".toList) } ("Foo".toList) rfl (by decide)

/-! ### C9: the numbered-list delimiter consumes the leading capital letter -/

/-- A digit character is not a newline. -/
theorem isDigitC_ne_newline {d : Char} (h : isDigitC d = true) : (d == '\n') = false := by
  cases hb : d == '\n' with
  | false => rfl
  | true =>
      have he : d = '\n' := eq_of_beq hb
      subst he
      exact absurd h (by decide)

/-- An uppercase letter differs from any character that is not uppercase. -/
theorem upper_ne_char {c : Char} (e : Char) (h : isUpperC c = true)
    (he : isUpperC e = false) : (c == e) = false := by
  cases hb : c == e with
  | false => rfl
  | true =>
      have hq : c = e := eq_of_beq hb
      subst hq
      rw [h] at he
      exact Bool.noConfusion he

/-- An uppercase letter is not whitespace. -/
theorem upper_not_space {c : Char} (h : isUpperC c = true) : isSpaceC c = false := by
  have h1 := upper_ne_char ' ' h (by decide)
  have h2 := upper_ne_char '\t' h (by decide)
  have h3 := upper_ne_char '\n' h (by decide)
  have h4 := upper_ne_char '\r' h (by decide)
  have h5 := upper_ne_char '\x0b' h (by decide)
  have h6 := upper_ne_char '\x0c' h (by decide)
  simp [isSpaceC, h1, h2, h3, h4, h5, h6]

/-- Unfolding the matcher on a class that accepts the current character. -/
theorem matRe_cls_pos {inp : List Char} {p : Char → Bool} {i : Nat} {c : Char}
    (hg : inp.get? i = some c) (hp : p c = true) (cp : Caps)
    (k : Nat → Caps → Option (Nat × Caps)) :
    matRe inp (.cls p) i cp k = k (i + 1) cp := by
  simp only [matRe]
  rw [hg]
  simp only [hp, if_true]

/-- Unfolding the matcher on a class that rejects the current position. -/
theorem matRe_cls_none {inp : List Char} {p : Char → Bool} {i : Nat}
    (h : ∀ e, inp.get? i = some e → p e = false) (cp : Caps)
    (k : Nat → Caps → Option (Nat × Caps)) :
    matRe inp (.cls p) i cp k = none := by
  simp only [matRe]
  cases hg : inp.get? i with
  | none => rfl
  | some e => simp [h e hg]

/-- One unfolding step of the greedy-star loop. -/
theorem starLoop_succ
    (body : Nat → Caps → (Nat → Caps → Option (Nat × Caps)) → Option (Nat × Caps))
    (f i : Nat) (cp : Caps) (k : Nat → Caps → Option (Nat × Caps)) :
    starLoop body (f + 1) i cp k =
      (body i cp (fun j cp2 => if i < j then starLoop body f j cp2 k else none)).orElse
        (fun _ => k i cp) := rfl

/-- The greedy star over a character class consumes exactly a maximal run of
class characters: `r` class characters ahead, a non-class character (or the
end of input) right after them, and a continuation that succeeds at the end
of the run. -/
theorem starLoop_cls_run (inp : List Char) (p : Char → Bool)
    (k : Nat → Caps → Option (Nat × Caps)) (v : Nat × Caps) :
    ∀ (r fuel i : Nat) (cp : Caps), r ≤ fuel →
      (∀ j, j < r → ∃ e, inp.get? (i + j) = some e ∧ p e = true) →
      (∀ e, inp.get? (i + r) = some e → p e = false) →
      k (i + r) cp = some v →
      starLoop (fun j cp2 k2 => matRe inp (.cls p) j cp2 k2) fuel i cp k = some v := by
  intro r
  induction r with
  | zero =>
      intro fuel i cp _ _ hstop hk
      rw [Nat.add_zero] at hstop hk
      cases fuel with
      | zero => exact hk
      | succ f =>
          rw [starLoop_succ]
          rw [matRe_cls_none hstop]
          exact hk
  | succ r ih =>
      intro fuel i cp hf hrun hstop hk
      cases fuel with
      | zero => exact absurd hf (by omega)
      | succ f =>
          obtain ⟨c0, hc0, hp0⟩ := hrun 0 (Nat.succ_pos r)
          rw [Nat.add_zero] at hc0
          rw [starLoop_succ]
          rw [matRe_cls_pos hc0 hp0]
          rw [if_pos (by omega : i < i + 1)]
          have hrec := ih f (i + 1) cp (by omega)
            (fun j hj => by
              obtain ⟨e, he, hpe⟩ := hrun (j + 1) (by omega)
              rw [show i + (j + 1) = i + 1 + j by omega] at he
              exact ⟨e, he, hpe⟩)
            (fun e he => hstop e (by
              rw [show i + (r + 1) = i + 1 + r by omega]
              exact he))
            (by
              rw [show i + 1 + r = i + (r + 1) by omega]
              exact hk)
          rw [hrec]
          rfl

/-- `matRe` on a starred character class, via `starLoop_cls_run`. -/
theorem matRe_star_cls (r : Nat) {inp : List Char} {p : Char → Bool} {i : Nat}
    (hrun : ∀ j, j < r → ∃ e, inp.get? (i + j) = some e ∧ p e = true)
    (hstop : ∀ e, inp.get? (i + r) = some e → p e = false)
    {cp : Caps} {k : Nat → Caps → Option (Nat × Caps)} {v : Nat × Caps}
    (hk : k (i + r) cp = some v) :
    matRe inp (.star (.cls p)) i cp k = some v := by
  have hfuel : r ≤ inp.length + 1 - i := by
    cases r with
    | zero => omega
    | succ n =>
        obtain ⟨e, he, _⟩ := hrun n (Nat.lt_succ_self n)
        have hlt : i + n < inp.length := by
          by_contra hge
          rw [List.get?_eq_none.mpr (by omega)] at he
          cases he
        omega
  show starLoop (fun j cp2 k2 => matRe inp (.cls p) j cp2 k2)
    (inp.length + 1 - i) i cp k = some v
  exact starLoop_cls_run inp p k v r (inp.length + 1 - i) i cp hfuel hrun hstop hk

/-- Introduction form for the sequencing case of `matRe`. -/
theorem mat_seq_intro {inp : List Char} {a b : Re} {i : Nat} {cp : Caps}
    {k : Nat → Caps → Option (Nat × Caps)} {v : Nat × Caps}
    (h : matRe inp a i cp (fun j cp2 => matRe inp b j cp2 k) = some v) :
    matRe inp (.seq a b) i cp k = some v := h

/-- Introduction form for a class that accepts the current character. -/
theorem mat_cls_intro {inp : List Char} {p : Char → Bool} {i : Nat} {c : Char}
    {cp : Caps} {k : Nat → Caps → Option (Nat × Caps)} {v : Nat × Caps}
    (hg : inp.get? i = some c) (hp : p c = true)
    (h : k (i + 1) cp = some v) : matRe inp (.cls p) i cp k = some v := by
  rw [matRe_cls_pos hg hp]
  exact h

/-- Introduction form for the empty pattern. -/
theorem mat_eps_intro {inp : List Char} {i : Nat} {cp : Caps}
    {k : Nat → Caps → Option (Nat × Caps)} {v : Nat × Caps}
    (h : k i cp = some v) : matRe inp .eps i cp k = some v := h

/-- Introduction form for `^` (any multiline flag) at position 0. -/
theorem mat_bol0_intro {inp : List Char} {ml : Bool} {cp : Caps}
    {k : Nat → Caps → Option (Nat × Caps)} {v : Nat × Caps}
    (h : k 0 cp = some v) : matRe inp (.bol ml) 0 cp k = some v := by
  simp [matRe]
  exact h

/-- A sequence headed by a class that rejects the current position fails. -/
theorem mat_seq_cls_none {inp : List Char} {p : Char → Bool} {b : Re} {i : Nat}
    (h : ∀ e, inp.get? i = some e → p e = false) (cp : Caps)
    (k : Nat → Caps → Option (Nat × Caps)) :
    matRe inp (.seq (.cls p) b) i cp k = none := by
  show matRe inp (.cls p) i cp (fun j cp2 => matRe inp b j cp2 k) = none
  exact matRe_cls_none h _ _

/-- The delimiter core `\d+\.\s+[A-Z]` matches a numbered-item head
`<digits>.<spaces><Capital>` from position 0, ending right after the capital
letter. -/
theorem delim_core_matches (d0 : Char) (ds1 : List Char) (w0 : Char) (ws1 : List Char)
    (c : Char) (rest : List Char)
    (hdig : ∀ d ∈ d0 :: ds1, isDigitC d = true)
    (hsp : ∀ x ∈ w0 :: ws1, isSpaceC x = true)
    (hc : isUpperC c = true)
    (cp : Caps) (k : Nat → Caps → Option (Nat × Caps)) (v : Nat × Caps)
    (hk : k (ds1.length + ws1.length + 4) cp = some v) :
    matRe ((d0 :: ds1) ++ '.' :: ((w0 :: ws1) ++ c :: rest))
      (rseq [digits1, chr '.', spaces1, Re.cls isUpperC]) 0 cp k = some v := by
  set t := (d0 :: ds1) ++ '.' :: ((w0 :: ws1) ++ c :: rest) with hT
  have F0 : t.get? 0 = some d0 := rfl
  have F1 : ∀ j, j < ds1.length →
      ∃ e, t.get? (1 + j) = some e ∧ isDigitC e = true := by
    intro j hj
    have hb : 1 + j < (d0 :: ds1).length := by
      simp only [List.length_cons]
      omega
    have h1 : t.get? (1 + j) = ds1.get? j := by
      rw [hT, List.get?_append hb, Nat.add_comm 1 j, List.get?_cons_succ]
    cases hq : ds1.get? j with
    | none =>
        rw [List.get?_eq_none] at hq
        omega
    | some e =>
        exact ⟨e, by rw [h1, hq], hdig e (List.mem_cons_of_mem d0 (List.get?_mem hq))⟩
  have F2' : t.get? (1 + ds1.length) = some '.' := by
    have hb : (d0 :: ds1).length ≤ 1 + ds1.length := by
      simp only [List.length_cons]
      omega
    rw [hT, List.get?_append_right hb,
      show 1 + ds1.length - (d0 :: ds1).length = 0 by simp only [List.length_cons]; omega]
    rfl
  have F2 : ∀ e, t.get? (1 + ds1.length) = some e → isDigitC e = false := by
    intro e he
    rw [F2'] at he
    cases he
    decide
  have F3 : t.get? (1 + ds1.length + 1) = some w0 := by
    have hb : (d0 :: ds1).length ≤ 1 + ds1.length + 1 := by
      simp only [List.length_cons]
      omega
    rw [hT, List.get?_append_right hb,
      show 1 + ds1.length + 1 - (d0 :: ds1).length = 1 by simp only [List.length_cons]; omega]
    rfl
  have F4 : ∀ j, j < ws1.length →
      ∃ e, t.get? (1 + ds1.length + 1 + 1 + j) = some e ∧ isSpaceC e = true := by
    intro j hj
    have hb : (d0 :: ds1).length ≤ 1 + ds1.length + 1 + 1 + j := by
      simp only [List.length_cons]
      omega
    have hb2 : 1 + j < (w0 :: ws1).length := by
      simp only [List.length_cons]
      omega
    have h1 : t.get? (1 + ds1.length + 1 + 1 + j) = ws1.get? j := by
      rw [hT, List.get?_append_right hb,
        show 1 + ds1.length + 1 + 1 + j - (d0 :: ds1).length = (1 + j) + 1 by
          simp only [List.length_cons]; omega,
        List.get?_cons_succ, List.get?_append hb2, Nat.add_comm 1 j, List.get?_cons_succ]
    cases hq : ws1.get? j with
    | none =>
        rw [List.get?_eq_none] at hq
        omega
    | some e =>
        exact ⟨e, by rw [h1, hq], hsp e (List.mem_cons_of_mem w0 (List.get?_mem hq))⟩
  have F5' : t.get? (1 + ds1.length + 1 + 1 + ws1.length) = some c := by
    have hb : (d0 :: ds1).length ≤ 1 + ds1.length + 1 + 1 + ws1.length := by
      simp only [List.length_cons]
      omega
    have hb2 : (w0 :: ws1).length ≤ ws1.length + 1 := by
      simp only [List.length_cons]
      omega
    rw [hT, List.get?_append_right hb,
      show 1 + ds1.length + 1 + 1 + ws1.length - (d0 :: ds1).length = (ws1.length + 1) + 1 by
        simp only [List.length_cons]; omega,
      List.get?_cons_succ, List.get?_append_right hb2,
      show ws1.length + 1 - (w0 :: ws1).length = 0 by simp only [List.length_cons]; omega]
    rfl
  have F5 : ∀ e, t.get? (1 + ds1.length + 1 + 1 + ws1.length) = some e → isSpaceC e = false := by
    intro e he
    rw [F5'] at he
    cases he
    exact upper_not_space hc
  refine mat_seq_intro ?_
  refine mat_seq_intro ?_
  refine mat_cls_intro F0 (hdig d0 (List.mem_cons_self d0 ds1)) ?_
  simp only [Nat.zero_add]
  refine matRe_star_cls ds1.length F1 F2 ?_
  refine mat_seq_intro ?_
  refine mat_cls_intro F2' (by decide) ?_
  refine mat_seq_intro ?_
  refine mat_seq_intro ?_
  refine mat_cls_intro F3 (hsp w0 (List.mem_cons_self w0 ws1)) ?_
  refine matRe_star_cls ws1.length F4 F5 ?_
  refine mat_seq_intro ?_
  refine mat_cls_intro F5' hc ?_
  refine mat_eps_intro ?_
  rw [show 1 + ds1.length + 1 + 1 + ws1.length + 1 = ds1.length + ws1.length + 4 by omega]
  exact hk

/-- On a numbered-item head the section delimiter regex matches at position 0
(its triple-newline branch fails on the digit) and the match ends right after
the capital letter. -/
theorem reSearch_delim_numbered (d0 : Char) (ds1 : List Char) (w0 : Char)
    (ws1 : List Char) (c : Char) (rest : List Char)
    (hdig : ∀ d ∈ d0 :: ds1, isDigitC d = true)
    (hsp : ∀ x ∈ w0 :: ws1, isSpaceC x = true)
    (hc : isUpperC c = true) :
    reSearch sectionDelimPat ((d0 :: ds1) ++ '.' :: ((w0 :: ws1) ++ c :: rest)) =
      some ⟨0, ds1.length + ws1.length + 4, []⟩ := by
  have hfail : matRe ((d0 :: ds1) ++ '.' :: ((w0 :: ws1) ++ c :: rest))
      (rseq [chr '\n', spaces0, chr '\n', spaces0, chr '\n']) 0 []
      (fun j cp => some (j, cp)) = none := by
    refine mat_seq_cls_none ?_ [] _
    intro e he
    have h0 : ((d0 :: ds1) ++ '.' :: ((w0 :: ws1) ++ c :: rest)).get? 0 = some d0 := rfl
    rw [h0] at he
    cases he
    exact isDigitC_ne_newline (hdig d0 (List.mem_cons_self d0 ds1))
  have hm : matRe ((d0 :: ds1) ++ '.' :: ((w0 :: ws1) ++ c :: rest)) sectionDelimPat 0 []
      (fun j cp => some (j, cp)) = some (ds1.length + ws1.length + 4, []) := by
    show (matRe ((d0 :: ds1) ++ '.' :: ((w0 :: ws1) ++ c :: rest))
        (rseq [chr '\n', spaces0, chr '\n', spaces0, chr '\n']) 0 []
        (fun j cp => some (j, cp))).orElse
      (fun _ => matRe ((d0 :: ds1) ++ '.' :: ((w0 :: ws1) ++ c :: rest))
        (rseq [digits1, chr '.', spaces1, Re.cls isUpperC]) 0 []
        (fun j cp => some (j, cp))) = some (ds1.length + ws1.length + 4, [])
    rw [hfail]
    exact delim_core_matches d0 ds1 w0 ws1 c rest hdig hsp hc [] _ _ rfl
  simp only [reSearch, searchFrom]
  rw [if_pos (Nat.zero_le _)]
  rw [hm]

/-- On a numbered-item head the numbered-list test fires: `^` holds at 0 and
the core pattern matches. -/
theorem hasNumberedList_numbered (d0 : Char) (ds1 : List Char) (w0 : Char)
    (ws1 : List Char) (c : Char) (rest : List Char)
    (hdig : ∀ d ∈ d0 :: ds1, isDigitC d = true)
    (hsp : ∀ x ∈ w0 :: ws1, isSpaceC x = true)
    (hc : isUpperC c = true) :
    hasNumberedList ((d0 :: ds1) ++ '.' :: ((w0 :: ws1) ++ c :: rest)) = true := by
  have hm : matRe ((d0 :: ds1) ++ '.' :: ((w0 :: ws1) ++ c :: rest)) numberedListPat 0 []
      (fun j cp => some (j, cp)) = some (ds1.length + ws1.length + 4, []) := by
    refine mat_seq_intro ?_
    refine mat_bol0_intro ?_
    exact delim_core_matches d0 ds1 w0 ws1 c rest hdig hsp hc [] _ _ rfl
  have hs : reSearch numberedListPat ((d0 :: ds1) ++ '.' :: ((w0 :: ws1) ++ c :: rest)) =
      some ⟨0, ds1.length + ws1.length + 4, []⟩ := by
    simp only [reSearch, searchFrom]
    rw [if_pos (Nat.zero_le _)]
    rw [hm]
  simp only [hasNumberedList, reTest]
  rw [hs]
  rfl

/-- Dropping the full numbered-item head leaves exactly the tail after the
capital letter. -/
theorem drop_numbered_head (d0 : Char) (ds1 : List Char) (w0 : Char)
    (ws1 : List Char) (c : Char) (rest : List Char) :
    ((d0 :: ds1) ++ '.' :: ((w0 :: ws1) ++ c :: rest)).drop
      (ds1.length + ws1.length + 4) = rest := by
  rw [show ds1.length + ws1.length + 4 = (d0 :: ds1).length + ((w0 :: ws1).length + 2) by
    simp only [List.length_cons]; omega]
  rw [List.drop_append]
  rw [show (w0 :: ws1).length + 2 = (w0 :: ws1).length + 1 + 1 by omega]
  rw [List.drop_succ_cons]
  rw [List.drop_append 1]
  rfl

/-- C9: on every numbered-list item block `<digits>.<spaces><Capital><tail>`
(with no further section delimiter inside the tail), `parseMultipleMedications`
classifies the text as multiple via the numbered-list test, and the section
split with `(?:\n\s*\n\s*\n|\d+\.\s+[A-Z])` consumes the item number, the
whitespace and the following capital letter: the resulting sections are the
empty string and the tail, so the section handed to field extraction is
missing the first capital letter of its leading word (for example
"1. Lisinopril 10mg" yields the section "isinopril 10mg"). -/
theorem numbered_split_consumes_capital (d0 : Char) (ds1 : List Char) (w0 : Char)
    (ws1 : List Char) (c : Char) (rest : List Char)
    (hdig : ∀ d ∈ d0 :: ds1, isDigitC d = true)
    (hsp : ∀ x ∈ w0 :: ws1, isSpaceC x = true)
    (hc : isUpperC c = true)
    (hrest : reSearch sectionDelimPat rest = none) :
    hasNumberedList ((d0 :: ds1) ++ '.' :: ((w0 :: ws1) ++ c :: rest)) = true ∧
    splitRe sectionDelimPat ((d0 :: ds1) ++ '.' :: ((w0 :: ws1) ++ c :: rest)) =
      [[], rest] := by
  refine ⟨hasNumberedList_numbered d0 ds1 w0 ws1 c rest hdig hsp hc, ?_⟩
  have hs := reSearch_delim_numbered d0 ds1 w0 ws1 c rest hdig hsp hc
  have hpos : (0 : Nat) < ds1.length + ws1.length + 4 := by omega
  have hdrop := drop_numbered_head d0 ds1 w0 ws1 c rest
  simp only [splitRe, splitGo, hs, List.take_zero]
  rw [if_pos hpos, hdrop]
  rw [hrest]

/-- Witness for C9 at the item "1. Lisinopril 10mg": the block is classified
multiple and the split yields the sections "" and "isinopril 10mg". -/
theorem numbered_split_consumes_capital_witness :
    hasNumberedList (('1' :: []) ++ '.' :: ((' ' :: []) ++ 'L' :: "isinopril 10mg".toList)) = true ∧
    splitRe sectionDelimPat (('1' :: []) ++ '.' :: ((' ' :: []) ++ 'L' :: "isinopril 10mg".toList)) =
      [[], "isinopril 10mg".toList] :=
  numbered_split_consumes_capital '1' [] ' ' [] 'L' ("isinopril 10mg".toList)
    (by decide) (by decide) (by decide) (by decide)

end LuminousOCR
